import Mathlib

/-!
Verification of the GB vehicle-injuries preprocessing pipeline.

This file gives a shallow embedding of the data pipeline in `src/utils.py`
(and the model step declared in `src/model.py`) and proves or refutes the
specification's claims about it.

Conventions of the embedding:
* a pandas DataFrame is a `List` of row structures, in row order;
* a cell that can be NaN is an `Option` value (`none` = NaN);
* machine floats that only ever hold exact small integers or means of
  integers are modelled as `ℚ`;
* `replace`, `np.where`, `groupby`, `merge`, `value_counts` are modelled by
  list functions whose behaviour matches the pandas calls on the inputs the
  claims concern; `value_counts` tie-breaking is modelled as
  first-encountered-wins, which is the only order-independent reading (the
  concrete inputs used below never tie).
-/

set_option autoImplicit false

namespace GBInjuries

/-- Key of a vehicle-level group: (accident_reference, vehicle_reference). -/
abbrev GroupKey := String × Int

/-- First-occurrence deduplication, the key set produced by a pandas
`groupby` (pandas additionally sorts the keys; no claim depends on the
order of the aggregated rows, only on their multiplicity and content). -/
def dedupFirst {α : Type} [DecidableEq α] : List α → List α
  | [] => []
  | x :: xs => x :: (dedupFirst xs).filter (fun y => decide (y ≠ x))

/-- Rows of a DataFrame `df` belonging to the group of key `k` under the
key projection `key` (a pandas `groupby` group, row order preserved). -/
def groupRows {α : Type} (key : α → GroupKey) (df : List α) (k : GroupKey) : List α :=
  df.filter fun r => decide (key r = k)

/-! ### Recoder (`recode_vehicle_type`, src/utils.py lines 243-273) -/

/-- Replacement dictionary of `recode_vehicle_type()` (utils.py lines 258-273). -/
def recode_vehicle_type : List (Int × Int) :=
  [(-1, -1), (3, 2), (4, 2), (5, 2), (10, 11), (16, 90), (17, 90),
   (20, 19), (21, 19), (22, 1), (23, 2), (97, 2), (98, 19), (99, -1)]

/-- Behaviour of `Series.replace(mapping)` on one cell: a value that is a
key of the mapping is replaced, every other value passes through. -/
def applyReplace : List (Int × Int) → Int → Int
  | [], v => v
  | (a, b) :: t, v => if v = a then b else applyReplace t v

/-! ### Key Normalizer (`accident_reference_fix`, utils.py lines 91-99) -/

/-- Python `str.zfill(width)` on the character list of the string: a string
of length at least `width` is returned unchanged; otherwise ASCII `'0'`
digits are inserted, after a leading sign character if one is present and
otherwise at the front. -/
def zfillChars (l : List Char) (w : Nat) : List Char :=
  if w ≤ l.length then l
  else
    match l with
    | [] => List.replicate w '0'
    | c :: rest =>
        if c = '+' ∨ c = '-' then c :: (List.replicate (w - l.length) '0' ++ rest)
        else List.replicate (w - l.length) '0' ++ (c :: rest)

/-- Python `x.zfill(9)`, the per-cell body of `accident_reference_fix`. -/
def pyZfill (s : String) (w : Nat) : String := String.mk (zfillChars s.data w)

/-- Embedding of `accident_reference_fix` (utils.py lines 91-99) applied to
a column already of string cells: `series.apply(lambda x: x.zfill(9))`. -/
def accident_reference_fix (series : List String) : List String :=
  series.map fun x => pyZfill x 9

/-! ### Unknown-sentinel recodes (`read_data`, utils.py lines 32-51 and 81) -/

/-- Vehicle columns whose unknown sentinel is 9 (utils.py lines 34-36). -/
def vehicleUnknown9Cols : List String :=
  ["towing_and_articulation", "junction_location", "skidding_and_overturning",
   "vehicle_leaving_carriageway", "first_point_of_impact", "vehicle_left_hand_drive"]

/-- Vehicle columns whose unknown sentinel is 99 (utils.py lines 37-39). -/
def vehicleUnknown99Cols : List String :=
  ["vehicle_manoeuvre", "vehicle_location_restricted_lane", "hit_object_in_carriageway",
   "hit_object_off_carriageway"]

/-- Accident columns whose unknown sentinel is 9 (utils.py lines 44-46). -/
def accidentUnknown9Cols : List String :=
  ["road_type", "junction_control", "weather_conditions", "road_surface_conditions",
   "special_conditions_at_site", "carriageway_hazards"]

/-- Per-cell effect, on a vehicle-table column `col`, of the unknown-code
recodes of `read_data` (utils.py lines 34-43 and 49-51) followed by the
final `df.replace({-1: np.NaN})` (line 81). `none` is the missing marker
(NaN) of the pipeline output. -/
def vehicleCellRecode (col : String) (v : Int) : Option Int :=
  let v1 := if col ∈ vehicleUnknown9Cols ∧ v = 9 then -1 else v
  let v2 := if col ∈ vehicleUnknown99Cols ∧ v1 = 99 then -1 else v1
  let v3 := if col = "journey_purpose_of_driver" ∧ v2 = 6 then -1 else v2
  let v4 := if col = "sex_of_driver" ∧ v3 = 3 then -1 else v3
  let v5 : Option Int :=
    if col = "journey_purpose_of_driver" ∧ (v4 = 6 ∨ v4 = 15) then none else some v4
  v5.bind fun w => if w = -1 then none else some w

/-- Per-cell effect, on an accident-table column `col`, of the unknown-code
recodes of `read_data` (utils.py lines 44-48) followed by the final
`df.replace({-1: np.NaN})` (line 81). -/
def accidentCellRecode (col : String) (v : Int) : Option Int :=
  let v1 := if col ∈ accidentUnknown9Cols ∧ v = 9 then -1 else v
  let v2 := if col = "speed_limit" ∧ v1 = 99 then -1 else v1
  if v2 = -1 then none else some v2

/-! ### Casualty table and `aggregate_casualty_data` (utils.py lines 101-175) -/

/-- Person-level casualty row, i.e. a row of the casualty table after
`drop_columns` (only the columns `aggregate_casualty_data` touches are
kept; every casualty field is nullable because the seeding left-merge of
line 59 introduces all-NaN casualty fields for vehicles with no
casualties). -/
structure CasualtyRow where
  accident_reference : String
  vehicle_reference : Int
  casualty_reference : Option Int
  casualty_class : Option Int
  sex_of_casualty : Option Int
  age_of_casualty : Option Int
  casualty_severity : Option Int
  casualty_type : Option Int
deriving Repr, DecidableEq

/-- Key projection of a person-level casualty row. -/
def keyC (r : CasualtyRow) : GroupKey := (r.accident_reference, r.vehicle_reference)

/-- The all-NaN casualty row the seeding left-merge produces for a vehicle
key with no matching casualty rows. -/
def emptyCasRow (k : GroupKey) : CasualtyRow :=
  { accident_reference := k.1, vehicle_reference := k.2, casualty_reference := none,
    casualty_class := none, sex_of_casualty := none, age_of_casualty := none,
    casualty_severity := none, casualty_type := none }

/-- Embedding of utils.py line 59:
`vehicle[['accident_reference','vehicle_reference']].merge(casualty, how='left')`.
Every vehicle key contributes its matching casualty rows, or one all-NaN
row when it has none. -/
def seedCasualty (vehKeys : List GroupKey) (cas : List CasualtyRow) : List CasualtyRow :=
  vehKeys.flatMap fun k =>
    if (groupRows keyC cas k).isEmpty then [emptyCasRow k] else groupRows keyC cas k

/-- Casualty row after utils.py lines 107-111: `casualty_class` and
`casualty_severity` have had NaN replaced by the sentinels 0 ("no
casualty") and 4 ("non-injury") and been cast to int. -/
structure CasRow2 where
  accident_reference : String
  vehicle_reference : Int
  casualty_reference : Option Int
  casualty_class : Int
  sex_of_casualty : Option Int
  age_of_casualty : Option Int
  casualty_severity : Int
  casualty_type : Option Int
deriving Repr, DecidableEq

/-- Key projection of a sentinel-filled casualty row. -/
def key2 (r : CasRow2) : GroupKey := (r.accident_reference, r.vehicle_reference)

/-- Embedding of utils.py lines 107-111: missing `casualty_class` becomes
the new category 0, missing `casualty_severity` becomes the new category 4,
and both columns are cast to int. -/
def fillSentinels (df : List CasualtyRow) : List CasRow2 :=
  df.map fun r =>
    { accident_reference := r.accident_reference, vehicle_reference := r.vehicle_reference,
      casualty_reference := r.casualty_reference,
      casualty_class := r.casualty_class.getD 0,
      sex_of_casualty := r.sex_of_casualty,
      age_of_casualty := r.age_of_casualty,
      casualty_severity := r.casualty_severity.getD 4,
      casualty_type := r.casualty_type }

/-- Embedding of utils.py lines 114-115: `sex_of_casualty` 9 becomes NaN,
then 2 (female) is replaced by 0. Note the raw missing code -1 is left in
place by the source. -/
def recodeSex (df : List CasRow2) : List CasRow2 :=
  df.map fun r =>
    { r with sex_of_casualty :=
        match r.sex_of_casualty with
        | some 9 => none
        | some 2 => some 0
        | x => x }

/-- Embedding of utils.py line 124:
`np.where(df['sex_of_casualty'] == -1, np.NaN, df['age_of_casualty'])` —
the age is blanked where the SEX column (not the age column) holds -1. -/
def maskAge (df : List CasRow2) : List CasRow2 :=
  df.map fun r =>
    { r with age_of_casualty :=
        if r.sex_of_casualty = some (-1) then none else r.age_of_casualty }

/-- Embedding of utils.py lines 133-134: `casualty_type` is recoded through
`recode_vehicle_type()` and then -1 is replaced by NaN. -/
def recodeType (df : List CasRow2) : List CasRow2 :=
  df.map fun r =>
    { r with casualty_type :=
        match r.casualty_type with
        | none => none
        | some v =>
            let w := applyReplace recode_vehicle_type v
            if w = -1 then none else some w }

/-- State of the casualty frame after lines 107-115 (sentinel fill and sex
recode), the frame the male-share aggregation of lines 116-117 sees. -/
def stage2 (df0 : List CasualtyRow) : List CasRow2 := recodeSex (fillSentinels df0)

/-- State of the casualty frame after line 124 (age mask), the frame the
mean-age aggregation of lines 125-126 sees. -/
def stage3 (df0 : List CasualtyRow) : List CasRow2 := maskAge (stage2 df0)

/-- State of the casualty frame after lines 133-134 (type recode), the
frame the modal-type (line 135-136) and worst-severity (line 145)
aggregations see. -/
def stage4 (df0 : List CasualtyRow) : List CasRow2 := recodeType (stage3 df0)

/-- Group keys of the casualty frame, the index of every
`groupby(['accident_reference','vehicle_reference'])` in
`aggregate_casualty_data`. -/
def aggKeys (df0 : List CasualtyRow) : List GroupKey := dedupFirst (df0.map keyC)

/-- Pandas `Series.mean()` over a nullable integer column: NaN entries are
skipped; the mean of an all-NaN (or empty) column is NaN. -/
def optMeanInt (l : List (Option Int)) : Option ℚ :=
  let vals := l.filterMap id
  if vals.isEmpty then none
  else some ((vals.map fun z => (z : ℚ)).sum / (vals.length : ℚ))

/-- Pandas `Series.mean()` over a nullable rational column (used for the
global imputation of lines 119-121 and 128-130, whose column already holds
per-group means). -/
def optMeanQ (ms : List (Option ℚ)) : Option ℚ :=
  let vals := ms.filterMap id
  if vals.isEmpty then none
  else some (vals.sum / (vals.length : ℚ))

/-- Pandas `x.value_counts(dropna=False).index[0]` on a nonempty group:
the most frequent value of the group WITH NaN counted as a value of its
own, ties going to the first-encountered value. Returns `none` either when
the winning value is NaN or (unreachably, the groups being seeded) when the
group is empty. Embeds utils.py line 136. -/
def modeVC (l : List (Option Int)) : Option Int :=
  (l.find? fun x => l.all fun y => decide (l.count y ≤ l.count x)).join

/-- Pandas `col.value_counts().index[0]` (default `dropna=True`) over the
column of per-group modes: the most frequent non-NaN value, `none` when the
column is all-NaN (where the source would raise on `.index[0]`). Embeds the
fallback value of utils.py line 140. -/
def globalMode (ms : List (Option Int)) : Option Int :=
  let vals := ms.filterMap id
  vals.find? fun x => vals.all fun y => decide (vals.count y ≤ vals.count x)

/-- Minimum of a nonempty int column (`groupby(...).min()`, utils.py line
145); the `[]` case never arises for the seeded groups. -/
def listMin : List Int → Int
  | [] => 0
  | h :: t => t.foldl min h

/-- Replacement dictionary of utils.py lines 161-166: worst severity is
collapsed to 2 classes (4 = non-injury and 3 = slight to 0; 2 = severe and
1 = fatal to 1). -/
def recode_casualty_worst (v : Int) : Int :=
  if v = 4 ∨ v = 3 then 0 else if v = 2 ∨ v = 1 then 1 else v

/-- Per-group male share before imputation (utils.py lines 116-117). -/
def share_at (df0 : List CasualtyRow) (k : GroupKey) : Option ℚ :=
  optMeanInt ((groupRows key2 (stage2 df0) k).map fun r => r.sex_of_casualty)

/-- Per-group mean casualty age before imputation (utils.py lines 125-126),
computed on the frame whose age column was masked by line 124. -/
def age_at (df0 : List CasualtyRow) (k : GroupKey) : Option ℚ :=
  optMeanInt ((groupRows key2 (stage3 df0) k).map fun r => r.age_of_casualty)

/-- Per-group modal recoded casualty type before imputation (utils.py lines
135-137). -/
def modal_at (df0 : List CasualtyRow) (k : GroupKey) : Option Int :=
  modeVC ((groupRows key2 (stage4 df0) k).map fun r => r.casualty_type)

/-- Per-group worst (minimum) casualty severity (utils.py lines 144-146),
computed after the severity column was sentinel-filled and int-cast by
lines 107-111. -/
def worst_at (df0 : List CasualtyRow) (k : GroupKey) : Int :=
  listMin ((groupRows key2 (stage4 df0) k).map fun r => r.casualty_severity)

/-- The `casualty_share_male` column over the group keys, pre-imputation. -/
def share_raw (df0 : List CasualtyRow) : List (Option ℚ) :=
  (aggKeys df0).map (share_at df0)

/-- The `casualty_mean_age` column over the group keys, pre-imputation. -/
def age_raw (df0 : List CasualtyRow) : List (Option ℚ) :=
  (aggKeys df0).map (age_at df0)

/-- The `casualty_modal_type` column over the group keys, pre-imputation. -/
def modal_raw (df0 : List CasualtyRow) : List (Option Int) :=
  (aggKeys df0).map (modal_at df0)

/-- Final `casualty_share_male` value of a group: the group mean, a missing
group mean imputed with the mean of the group-mean column (lines 119-121),
and any residual NaN filled with -1 by line 170. -/
def share_final (df0 : List CasualtyRow) (k : GroupKey) : ℚ :=
  (match share_at df0 k with
   | some q => some q
   | none => optMeanQ (share_raw df0)).getD (-1)

/-- Final `casualty_mean_age` value of a group (lines 128-130 and 170). -/
def age_final (df0 : List CasualtyRow) (k : GroupKey) : ℚ :=
  (match age_at df0 k with
   | some q => some q
   | none => optMeanQ (age_raw df0)).getD (-1)

/-- Final `casualty_modal_type` value of a group: the group mode, a missing
group mode imputed with the modal value of the group-mode column (lines
139-141), then int-cast (line 142; on an input whose group modes are all
missing the source raises there, which the residual -1 of this embedding
never lets the claims' inputs reach). -/
def modal_final (df0 : List CasualtyRow) (k : GroupKey) : Int :=
  (match modal_at df0 k with
   | some m => some m
   | none => globalMode (modal_raw df0)).getD (-1)

/-- Final `casualty_worst` value of a group: the group minimum severity
recoded to 2 classes by line 167. -/
def worst_final (df0 : List CasualtyRow) (k : GroupKey) : Int :=
  recode_casualty_worst (worst_at df0 k)

/-- Column names of the aggregated frame at utils.py line 173, i.e. after
the drop of line 148-149, the group-by of line 152, the merges of lines
155-158 and the recode/fill of lines 167-170, just before `casualty_total`
is appended. -/
def preTotalColumns : List String :=
  ["accident_reference", "vehicle_reference", "casualty_worst",
   "casualty_modal_type", "casualty_share_male", "casualty_mean_age"]

/-- Whether `pat` occurs as a contiguous substring of the start of `l`. -/
def prefChars : List Char → List Char → Bool
  | [], _ => true
  | _ :: _, [] => false
  | a :: as, b :: bs => a = b && prefChars as bs

/-- Whether `pat` occurs as a contiguous substring of `l`. -/
def subChars (pat : List Char) : List Char → Bool
  | [] => pat.isEmpty
  | b :: bs => prefChars pat (b :: bs) || subChars pat bs

/-- Python `pat in s` on strings, the membership test of the column
comprehension at utils.py line 173. -/
def strContains (s pat : String) : Bool := subChars pat.data s.data

/-- Numeric value of the aggregated frame's column `c` in the row whose
final aggregate values are given (columns outside the four aggregates,
i.e. the key columns, carry no numeric value to a row sum). -/
def aggNumValue (worst modal : Int) (share age : ℚ) (c : String) : ℚ :=
  if c = "casualty_worst" then (worst : ℚ)
  else if c = "casualty_modal_type" then (modal : ℚ)
  else if c = "casualty_share_male" then share
  else if c = "casualty_mean_age" then age
  else 0

/-- Embedding of utils.py line 173: the row sum over those columns of the
aggregated frame whose name contains the substring "casualty_class" (the
one-hot columns this variant of the source never creates, `casualty_class`
itself having been dropped at line 148). -/
def casualty_total_value (worst modal : Int) (share age : ℚ) : ℚ :=
  ((preTotalColumns.filter fun c => strContains c "casualty_class").map
    (aggNumValue worst modal share age)).sum

/-- One row of the output of `aggregate_casualty_data`. -/
structure AggRow where
  accident_reference : String
  vehicle_reference : Int
  casualty_worst : Int
  casualty_modal_type : Int
  casualty_share_male : ℚ
  casualty_mean_age : ℚ
  casualty_total : ℚ
deriving Repr, DecidableEq

/-- Key projection of an aggregated row. -/
def keyA (r : AggRow) : GroupKey := (r.accident_reference, r.vehicle_reference)

/-- The aggregated row of the group of key `k` (utils.py lines 101-175 read
off per key: the merges of lines 155-158 align the four aggregate columns
on the shared group index). -/
def aggRowFor (df0 : List CasualtyRow) (k : GroupKey) : AggRow :=
  { accident_reference := k.1, vehicle_reference := k.2,
    casualty_worst := worst_final df0 k,
    casualty_modal_type := modal_final df0 k,
    casualty_share_male := share_final df0 k,
    casualty_mean_age := age_final df0 k,
    casualty_total :=
      casualty_total_value (worst_final df0 k) (modal_final df0 k)
        (share_final df0 k) (age_final df0 k) }

/-- Embedding of `aggregate_casualty_data` (utils.py lines 101-175): one
output row per group key of the person-level input frame. -/
def aggregate_casualty_data (df0 : List CasualtyRow) : List AggRow :=
  (aggKeys df0).map (aggRowFor df0)

/-! ### Join Engine (`read_data`, utils.py lines 59-64) -/

/-- Vehicle-table row (key columns plus the recoded vehicle type; the
remaining vehicle attributes play no part in any claim about the joins). -/
structure VehicleRow where
  accident_reference : String
  vehicle_reference : Int
  vehicle_type : Int
deriving Repr, DecidableEq

/-- Key projection of a vehicle row. -/
def keyV (r : VehicleRow) : GroupKey := (r.accident_reference, r.vehicle_reference)

/-- Accident-table row (join key plus a representative attribute). -/
structure AccidentRow where
  accident_reference : String
  speed_limit : Int
deriving Repr, DecidableEq

/-- One row of the per-year merged output of utils.py lines 63-64. -/
structure FinalRow where
  veh : VehicleRow
  agg : Option AggRow
  acc : AccidentRow
deriving Repr, DecidableEq

/-- Embedding of utils.py line 63: vehicle left-merged with the aggregated
casualty summary on the group key. -/
def mergeVehicleCasualty (vehicle : List VehicleRow) (agg : List AggRow) :
    List (VehicleRow × Option AggRow) :=
  vehicle.flatMap fun vr =>
    if (agg.filter fun ar => decide (keyA ar = keyV vr)).isEmpty then [(vr, none)]
    else (agg.filter fun ar => decide (keyA ar = keyV vr)).map fun ar => (vr, some ar)

/-- Embedding of utils.py line 64: inner merge with the accident table on
`accident_reference`; a left row with no accident match disappears. -/
def mergeAccident (pairs : List (VehicleRow × Option AggRow))
    (accident : List AccidentRow) : List FinalRow :=
  pairs.flatMap fun p =>
    (accident.filter fun ac => decide (ac.accident_reference = p.1.accident_reference)).map
      fun ac => { veh := p.1, agg := p.2, acc := ac }

/-- One year of `read_data` from the casualty seeding to the accident
merge (utils.py lines 59-64). -/
def yearPipeline (vehicle : List VehicleRow) (accident : List AccidentRow)
    (casualty : List CasualtyRow) : List FinalRow :=
  mergeAccident
    (mergeVehicleCasualty vehicle
      (aggregate_casualty_data (seedCasualty (vehicle.map keyV) casualty)))
    accident

/-- Number of vehicle rows the inner accident merge of utils.py line 64
drops (rows whose accident reference has no accident-table match). The
source does not compute this quantity. -/
def unmatchedVehicleCount (vehicle : List VehicleRow) (accident : List AccidentRow) : Nat :=
  (vehicle.filter fun vr =>
    accident.all fun ac => decide (ac.accident_reference ≠ vr.accident_reference)).length

/-- Diagnostics `read_data` emits about the inner accident merge: the
source contains no logging, printing or counting of dropped rows anywhere
(its only acknowledgement is the code comment "merge rate not quite 100%"
on utils.py line 64), so the emitted report is empty. -/
def read_data_report : List String := []

/-! ### Spec-side definitions used to compare claims with the source -/

/-- Modal category as the specification sentence of claim C1 words it: the
most frequent value among the recoded casualty types WITH genuine missing
values excluded from the frequency count, and no value at all (the field
"remains missing") when the group is empty after the exclusions. Written
from the spec's words, to be compared against `modal_at`/`modal_final`. -/
def specModalExcludingMissing (l : List (Option Int)) : Option Int :=
  let vals := l.filterMap id
  vals.find? fun x => vals.all fun y => decide (vals.count y ≤ vals.count x)

/-- Claim C1 as stated, instantiated to one input frame: every group's
final modal-type value is the missing-excluded mode, and is the final
missing marker -1 when the group is empty after the exclusions. -/
def claimC1Holds (df0 : List CasualtyRow) : Prop :=
  ∀ k ∈ aggKeys df0,
    modal_final df0 k =
      (match specModalExcludingMissing
          ((groupRows key2 (stage4 df0) k).map fun r => r.casualty_type) with
       | some m => m
       | none => (-1 : Int))

/-- Per-group mean age as the specification sentence of claim C8 words it:
ages carrying the sentinel/missing code -1 are excluded from the mean
(genuine NaN already is). Written from the spec's words, to be compared
against `age_at`. -/
def specAgeAt (df0 : List CasualtyRow) (k : GroupKey) : Option ℚ :=
  optMeanInt ((groupRows key2 (stage2 df0) k).map fun r =>
    match r.age_of_casualty with
    | some (-1) => none
    | x => x)

/-- The spec-side mean-age column over the group keys. -/
def specAgeRaw (df0 : List CasualtyRow) : List (Option ℚ) :=
  (aggKeys df0).map (specAgeAt df0)

/-- Final per-group mean age as claim C8 words it: the missing-safe group
mean, an empty group imputed with the global mean of the column of group
means. -/
def specAgeFinal (df0 : List CasualtyRow) (k : GroupKey) : ℚ :=
  (match specAgeAt df0 k with
   | some q => some q
   | none => optMeanQ (specAgeRaw df0)).getD (-1)

/-! ### Imputation Model Step (src/model.py)

`src/model.py` declares only `class Model` with a constructor storing the
data and a model config; the training and prediction methods of the
imputation step are not part of the sources under `src/`. The three
definitions below are therefore modelled from the spec (section 4.7), not
translated from source code. -/

/-- Modelled from the spec: the partition step of section 4.7 ("Partitions
rows into label present and label missing") restricted to its label-present
half. A row is a pair of its feature columns (everything except the label)
and its nullable label, the modal struck-object category. -/
def label_present_subset {φ : Type} (rows : List (φ × Option Int)) : List (φ × Int) :=
  rows.filterMap fun r => r.2.map fun l => (r.1, l)

/-- Modelled from the spec: the held-out validation split of section 4.7
("80/20, fixed seed, stratified on the label"). Within each label class,
in first-encountered class order, the first 80% of the class's rows (a
deterministic stand-in for the fixed-seed shuffle, which is external
randomness) go to the training half and the remainder to the validation
half. -/
def stratified_split {φ : Type} (data : List (φ × Int)) :
    List (φ × Int) × List (φ × Int) :=
  let classes := dedupFirst (data.map fun r => r.2)
  (classes.flatMap fun c =>
      let s := data.filter fun r => decide (r.2 = c)
      s.take (4 * s.length / 5),
   classes.flatMap fun c =>
      let s := data.filter fun r => decide (r.2 = c)
      s.drop (4 * s.length / 5))

/-- Modelled from the spec: the imputation step of section 4.7. `fit` is
the external Classifier collaborator: given the (train, validation) split
it returns a predictor (its early stopping on the validation half is
internal to the collaborator). The step trains on the label-present
subset, predicts for every label-missing row from its feature columns (the
label column is excluded by construction), and writes the predictions back
in place of the missing labels. -/
def impute_modal_type {φ : Type}
    (fit : List (φ × Int) × List (φ × Int) → φ → Int)
    (rows : List (φ × Option Int)) : List (φ × Int) :=
  let present := label_present_subset rows
  let clf := fit (stratified_split present)
  rows.map fun r =>
    (r.1, match r.2 with
          | some l => l
          | none => clf r.1)

/-! ### Concrete inputs used by counterexamples and witnesses -/

/-- Convenience constructor for a fully populated casualty row. -/
def mkCas (a : String) (v : Int) (ref cls sex age sev ty : Int) : CasualtyRow :=
  { accident_reference := a, vehicle_reference := v, casualty_reference := some ref,
    casualty_class := some cls, sex_of_casualty := some sex, age_of_casualty := some age,
    casualty_severity := some sev, casualty_type := some ty }

/-- Casualty rows of the C1 counterexample input: vehicle ("a",1) has two
casualties of raw type 99 (unknown, recoded to missing) and one of type 8
(taxi); vehicle ("a",2) has one of type 9 (car); vehicle ("a",3) has none. -/
def c1cas : List CasualtyRow :=
  [mkCas "a" 1 1 1 1 20 3 99, mkCas "a" 1 2 1 1 30 3 99, mkCas "a" 1 3 1 1 40 3 8,
   mkCas "a" 2 1 1 1 25 3 9]

/-- Seeded casualty frame of the C1 counterexample. -/
def c1df : List CasualtyRow := seedCasualty [("a", 1), ("a", 2), ("a", 3)] c1cas

/-- Casualty rows of the C8 failing input: the casualty of vehicle ("a",1)
has the age missing-code -1 with a valid sex, the casualty of vehicle
("a",2) has age 30. -/
def c8cas : List CasualtyRow :=
  [mkCas "a" 1 1 1 1 (-1) 3 9, mkCas "a" 2 1 1 1 30 3 9]

/-- Seeded casualty frame of the C8 failing input. -/
def c8df : List CasualtyRow := seedCasualty [("a", 1), ("a", 2)] c8cas

/-- Casualty rows of the C3 failing input: vehicle ("a",1) has exactly one
actual casualty row. -/
def c3cas : List CasualtyRow := [mkCas "a" 1 1 1 1 20 3 9]

/-- Seeded casualty frame of the C3 failing input. -/
def c3df : List CasualtyRow := seedCasualty [("a", 1)] c3cas

/-! ## Helper lemmas -/

theorem mem_dedupFirst {α : Type} [DecidableEq α] (l : List α) (a : α) :
    a ∈ dedupFirst l ↔ a ∈ l := by
  induction l with
  | nil => simp [dedupFirst]
  | cons x xs ih =>
    by_cases hax : a = x
    · subst hax; simp [dedupFirst]
    · simp [dedupFirst, hax, ih]

theorem nodup_dedupFirst {α : Type} [DecidableEq α] (l : List α) :
    (dedupFirst l).Nodup := by
  induction l with
  | nil => simp [dedupFirst]
  | cons x xs ih =>
    rw [dedupFirst, List.nodup_cons]
    constructor
    · intro hmem
      have := List.of_mem_filter hmem
      simp at this
    · exact ih.filter _

theorem filter_flatMap {α β : Type} (l : List α) (f : α → List β) (p : β → Bool) :
    (l.flatMap f).filter p = l.flatMap fun a => (f a).filter p := by
  induction l with
  | nil => rfl
  | cons a t ih => simp [List.flatMap_cons, List.filter_append, ih]

theorem countP_flatMap {α β : Type} (l : List α) (f : α → List β) (p : β → Bool) :
    (l.flatMap f).countP p = (l.map fun a => (f a).countP p).sum := by
  induction l with
  | nil => rfl
  | cons a t ih => simp [List.flatMap_cons, List.countP_append, ih]

theorem flatMap_eq_of_unique {α β : Type} [DecidableEq α] (l : List α)
    (h : α → List β) (c : α) (hnd : l.Nodup) (hmem : c ∈ l)
    (hz : ∀ x ∈ l, x ≠ c → h x = []) : l.flatMap h = h c := by
  induction l with
  | nil => simp at hmem
  | cons a t ih =>
    rw [List.nodup_cons] at hnd
    rcases List.mem_cons.mp hmem with rfl | hct
    · have : t.flatMap h = [] := by
        apply List.flatMap_eq_nil_iff.mpr
        intro x hx
        exact hz x (List.mem_cons_of_mem _ hx) fun hxa => hnd.1 (hxa ▸ hx)
      simp [List.flatMap_cons, this]
    · have hac : a ≠ c := fun hac => hnd.1 (hac ▸ hct)
      have hha : h a = [] := hz a (List.mem_cons_self _ _) hac
      rw [List.flatMap_cons, hha, List.nil_append]
      exact ih hnd.2 hct fun x hx => hz x (List.mem_cons_of_mem _ hx)

theorem sum_map_eq_of_unique {α : Type} [DecidableEq α] (l : List α)
    (g : α → Nat) (c : α) (hnd : l.Nodup) (hmem : c ∈ l)
    (hz : ∀ x ∈ l, x ≠ c → g x = 0) : (l.map g).sum = g c := by
  induction l with
  | nil => simp at hmem
  | cons a t ih =>
    rw [List.nodup_cons] at hnd
    rcases List.mem_cons.mp hmem with rfl | hct
    · have : (t.map g).sum = 0 := by
        apply List.sum_eq_zero
        intro n hn
        obtain ⟨x, hx, rfl⟩ := List.mem_map.mp hn
        exact hz x (List.mem_cons_of_mem _ hx) fun hxa => hnd.1 (hxa ▸ hx)
      simp [this]
    · have hac : a ≠ c := fun hac2 => hnd.1 (hac2 ▸ hct)
      have hga : g a = 0 := hz a (List.mem_cons_self _ _) hac
      rw [List.map_cons, List.sum_cons, hga, Nat.zero_add]
      exact ih hnd.2 hct fun x hx => hz x (List.mem_cons_of_mem _ hx)

theorem filter_eq_singleton_of_nodup {α : Type} [DecidableEq α] (l : List α)
    (hnd : l.Nodup) (a : α) (ha : a ∈ l) :
    l.filter (fun y => decide (y = a)) = [a] := by
  induction l with
  | nil => simp at ha
  | cons x t ih =>
    rw [List.nodup_cons] at hnd
    rcases List.mem_cons.mp ha with rfl | hat
    · have : t.filter (fun y => decide (y = a)) = [] := by
        apply List.filter_eq_nil_iff.mpr
        intro b hb
        simp only [decide_eq_true_eq]
        exact fun hba => hnd.1 (hba ▸ hb)
      simp [List.filter_cons, this]
    · have hxa : x ≠ a := fun hxa => hnd.1 (hxa ▸ hat)
      simp only [List.filter_cons, decide_eq_true_eq, hxa, if_false]
      exact ih hnd.2 hat

theorem exists_max_image {α : Type} (l : List α) (f : α → Nat) (h : l ≠ []) :
    ∃ x ∈ l, ∀ y ∈ l, f y ≤ f x := by
  induction l with
  | nil => exact absurd rfl h
  | cons a t ih =>
    rcases eq_or_ne t [] with rfl | ht
    · exact ⟨a, List.mem_cons_self _ _, by simp⟩
    · obtain ⟨x, hx, hmax⟩ := ih ht
      by_cases hfa : f a ≤ f x
      · refine ⟨x, List.mem_cons_of_mem _ hx, ?_⟩
        intro y hy
        rcases List.mem_cons.mp hy with rfl | hyt
        · exact hfa
        · exact hmax y hyt
      · refine ⟨a, List.mem_cons_self _ _, ?_⟩
        intro y hy
        rcases List.mem_cons.mp hy with rfl | hyt
        · exact le_refl _
        · exact le_trans (hmax y hyt) (Nat.le_of_not_le hfa)

theorem foldl_min_le_init (t : List Int) (a : Int) : t.foldl min a ≤ a := by
  induction t generalizing a with
  | nil => simp
  | cons b t ih => exact le_trans (ih (min a b)) (min_le_left _ _)

theorem listMin_mem (l : List Int) (h : l ≠ []) : listMin l ∈ l := by
  match l with
  | h₀ :: t =>
    rw [listMin]
    clear h
    induction t generalizing h₀ with
    | nil => simp
    | cons b t ih =>
      rw [List.foldl_cons]
      have h1 := ih (min h₀ b)
      rcases List.mem_cons.mp h1 with he | hmt
      · rw [he]
        rcases min_choice h₀ b with hc | hc <;> rw [hc] <;> simp
      · exact List.mem_cons_of_mem _ (List.mem_cons_of_mem _ hmt)

theorem groupRows_fillSentinels (df : List CasualtyRow) (k : GroupKey) :
    groupRows key2 (fillSentinels df) k = fillSentinels (groupRows keyC df k) := by
  simp only [groupRows, fillSentinels, List.filter_map]
  rfl

theorem groupRows_recodeSex (df : List CasRow2) (k : GroupKey) :
    groupRows key2 (recodeSex df) k = recodeSex (groupRows key2 df k) := by
  simp only [groupRows, recodeSex, List.filter_map]
  rfl

theorem groupRows_maskAge (df : List CasRow2) (k : GroupKey) :
    groupRows key2 (maskAge df) k = maskAge (groupRows key2 df k) := by
  simp only [groupRows, maskAge, List.filter_map]
  rfl

theorem groupRows_recodeType (df : List CasRow2) (k : GroupKey) :
    groupRows key2 (recodeType df) k = recodeType (groupRows key2 df k) := by
  simp only [groupRows, recodeType, List.filter_map]
  rfl

theorem groupRows_stage4 (df0 : List CasualtyRow) (k : GroupKey) :
    groupRows key2 (stage4 df0) k =
      recodeType (maskAge (recodeSex (fillSentinels (groupRows keyC df0 k)))) := by
  rw [stage4, stage3, stage2, groupRows_recodeType, groupRows_maskAge,
    groupRows_recodeSex, groupRows_fillSentinels]

theorem mem_aggKeys (df0 : List CasualtyRow) (k : GroupKey) :
    k ∈ aggKeys df0 ↔ ∃ r ∈ df0, keyC r = k := by
  rw [aggKeys, mem_dedupFirst]
  simp [List.mem_map]

theorem groupRows_ne_nil_of_mem_aggKeys (df0 : List CasualtyRow) (k : GroupKey)
    (hk : k ∈ aggKeys df0) : groupRows key2 (stage4 df0) k ≠ [] := by
  obtain ⟨r, hr, hkey⟩ := (mem_aggKeys df0 k).mp hk
  rw [groupRows_stage4]
  intro hnil
  have hgrp : r ∈ groupRows keyC df0 k := by
    rw [groupRows, List.mem_filter]
    exact ⟨hr, by simp [hkey]⟩
  have : (groupRows keyC df0 k).length = 0 := by
    have hlen : (recodeType (maskAge (recodeSex (fillSentinels (groupRows keyC df0 k))))).length
        = (groupRows keyC df0 k).length := by
      simp [recodeType, maskAge, recodeSex, fillSentinels]
    rw [hnil] at hlen
    simpa using hlen.symm
  rw [List.length_eq_zero] at this
  simp [this] at hgrp

theorem listMin_le (l : List Int) : ∀ y ∈ l, listMin l ≤ y := by
  match l with
  | [] => simp
  | h₀ :: t =>
    rw [listMin]
    induction t generalizing h₀ with
    | nil => simp
    | cons b t ih =>
      intro y hy
      rw [List.foldl_cons]
      rcases List.mem_cons.mp hy with rfl | hyt
      · exact le_trans (foldl_min_le_init _ _) (min_le_left _ _)
      · rcases List.mem_cons.mp hyt with rfl | hyt'
        · exact le_trans (foldl_min_le_init _ _) (min_le_right _ _)
        · exact ih (min h₀ b) y (List.mem_cons_of_mem _ hyt')

/-! ## Claim theorems -/

/-- C10: the vehicle-type consolidation recode is idempotent; applying the
`recode_vehicle_type` replacement mapping twice yields the same result as
applying it once, for every integer code. -/
theorem recode_vehicle_type_idempotent (v : Int) :
    applyReplace recode_vehicle_type (applyReplace recode_vehicle_type v) =
      applyReplace recode_vehicle_type v := by
  by_cases h1 : v = -1
  · subst h1; decide
  by_cases h2 : v = 3
  · subst h2; decide
  by_cases h3 : v = 4
  · subst h3; decide
  by_cases h4 : v = 5
  · subst h4; decide
  by_cases h5 : v = 10
  · subst h5; decide
  by_cases h6 : v = 16
  · subst h6; decide
  by_cases h7 : v = 17
  · subst h7; decide
  by_cases h8 : v = 20
  · subst h8; decide
  by_cases h9 : v = 21
  · subst h9; decide
  by_cases h10 : v = 22
  · subst h10; decide
  by_cases h11 : v = 23
  · subst h11; decide
  by_cases h12 : v = 97
  · subst h12; decide
  by_cases h13 : v = 98
  · subst h13; decide
  by_cases h14 : v = 99
  · subst h14; decide
  have hv : applyReplace recode_vehicle_type v = v := by
    simp [recode_vehicle_type, applyReplace, h1, h2, h3, h4, h5, h6, h7, h8,
      h9, h10, h11, h12, h13, h14]
  rw [hv, hv]

theorem length_zfillChars (l : List Char) (w : Nat) (h : ¬ w ≤ l.length) :
    (zfillChars l w).length = w := by
  cases l with
  | nil => simp only [zfillChars, if_neg h]; simp
  | cons c rest =>
    by_cases hc : c = '+' ∨ c = '-'
    · simp only [zfillChars, if_neg h, if_pos hc]
      simp at h ⊢
      omega
    · simp only [zfillChars, if_neg h, if_neg hc]
      simp at h ⊢
      omega

/-- C6: the key normalizer is idempotent; a key that is already 9
characters long is returned unchanged; a shorter key (a digit string, as
accident references are) is left-padded with zeros to width 9; and the
column-level fix is idempotent as well. -/
theorem accident_reference_fix_spec (s : String) (series : List String) :
    (s.length = 9 → pyZfill s 9 = s)
  ∧ pyZfill (pyZfill s 9) 9 = pyZfill s 9
  ∧ ((∀ c ∈ s.data, c.isDigit) → s.length < 9 →
      (pyZfill s 9).data = List.replicate (9 - s.length) '0' ++ s.data)
  ∧ accident_reference_fix (accident_reference_fix series) = accident_reference_fix series := by
  have hfix : ∀ z : List Char, 9 ≤ z.length → zfillChars z 9 = z := by
    intro z hz
    simp [zfillChars, hz]
  have hidem : ∀ t : String, pyZfill (pyZfill t 9) 9 = pyZfill t 9 := by
    intro t
    by_cases h : 9 ≤ t.data.length
    · have e1 : pyZfill t 9 = t := by
        show String.mk (zfillChars t.data 9) = t
        rw [hfix t.data h]
      rw [e1, e1]
    · have hlen : (zfillChars t.data 9).length = 9 := length_zfillChars t.data 9 h
      show String.mk (zfillChars (String.mk (zfillChars t.data 9)).data 9) = _
      have hdata : (String.mk (zfillChars t.data 9)).data = zfillChars t.data 9 := rfl
      rw [hdata, hfix _ (by rw [hlen])]
      rfl
  refine ⟨?_, hidem s, ?_, ?_⟩
  · intro h9
    have hsd : 9 ≤ s.data.length := by
      have hh : s.length = s.data.length := rfl
      omega
    show String.mk (zfillChars s.data 9) = s
    rw [hfix s.data hsd]
  · intro hdig hlt
    have hlen : s.length = s.data.length := rfl
    have h : ¬ 9 ≤ s.data.length := by omega
    show zfillChars s.data 9 = _
    cases hs : s.data with
    | nil =>
      have h0 : s.length = 0 := by rw [hlen, hs]; rfl
      simp [zfillChars, hs, h0]
    | cons c rest =>
      have hc : ¬ (c = '+' ∨ c = '-') := by
        have hcd : c.isDigit := hdig c (by rw [hs]; exact List.mem_cons_self _ _)
        rintro (rfl | rfl) <;> exact absurd hcd (by decide)
      rw [hs] at h
      simp only [zfillChars, if_neg h, if_neg hc]
      rw [hlen, hs]
  · simp only [accident_reference_fix, List.map_map]
    apply List.map_congr_left
    intro a _
    exact hidem a

/-- C6 witness: the key-normalizer theorem evaluated at the concrete keys
"000000123" (already 9 characters), "7" and "123" of the claim. -/
theorem accident_reference_fix_spec_witness :
    pyZfill "000000123" 9 = "000000123"
  ∧ pyZfill (pyZfill "7" 9) 9 = pyZfill "7" 9
  ∧ (pyZfill "123" 9).data = List.replicate (9 - "123".length) '0' ++ "123".data
  ∧ pyZfill "123" 9 = "000000123" :=
  ⟨(accident_reference_fix_spec "000000123" []).1 (by decide),
   (accident_reference_fix_spec "7" []).2.1,
   (accident_reference_fix_spec "123" []).2.2.1 (by decide) (by decide),
   by decide⟩

/-- C9: for every listed column the column-specific unknown sentinel ends
up as the missing marker (NaN, embedded as `none`) in the pipeline output;
for the driver journey-purpose column both code 6 and code 15 do; and every
other code of these columns (other than the raw missing code -1, which is
the dataset's own missing marker and also maps to NaN) passes through
unchanged. -/
theorem unknown_sentinels_become_missing :
    (∀ col ∈ vehicleUnknown9Cols,
        vehicleCellRecode col 9 = none
      ∧ ∀ v : Int, v ≠ 9 → v ≠ -1 → vehicleCellRecode col v = some v)
  ∧ (∀ col ∈ vehicleUnknown99Cols,
        vehicleCellRecode col 99 = none
      ∧ ∀ v : Int, v ≠ 99 → v ≠ -1 → vehicleCellRecode col v = some v)
  ∧ (vehicleCellRecode "journey_purpose_of_driver" 6 = none
     ∧ vehicleCellRecode "journey_purpose_of_driver" 15 = none
     ∧ ∀ v : Int, v ≠ 6 → v ≠ 15 → v ≠ -1 →
         vehicleCellRecode "journey_purpose_of_driver" v = some v)
  ∧ (vehicleCellRecode "sex_of_driver" 3 = none
     ∧ ∀ v : Int, v ≠ 3 → v ≠ -1 → vehicleCellRecode "sex_of_driver" v = some v)
  ∧ (∀ col ∈ accidentUnknown9Cols,
        accidentCellRecode col 9 = none
      ∧ ∀ v : Int, v ≠ 9 → v ≠ -1 → accidentCellRecode col v = some v)
  ∧ (accidentCellRecode "speed_limit" 99 = none
     ∧ ∀ v : Int, v ≠ 99 → v ≠ -1 → accidentCellRecode "speed_limit" v = some v) := by
  refine ⟨?_, ?_, ⟨by decide, by decide, ?_⟩, ⟨by decide, ?_⟩, ?_, ⟨by decide, ?_⟩⟩
  · intro col hcol
    fin_cases hcol <;>
      exact ⟨by decide, fun v h9 hm => by
        simp [vehicleCellRecode, vehicleUnknown9Cols, vehicleUnknown99Cols, h9, hm]⟩
  · intro col hcol
    fin_cases hcol <;>
      exact ⟨by decide, fun v h99 hm => by
        simp [vehicleCellRecode, vehicleUnknown9Cols, vehicleUnknown99Cols, h99, hm]⟩
  · intro v h6 h15 hm
    simp [vehicleCellRecode, vehicleUnknown9Cols, vehicleUnknown99Cols, h6, h15, hm]
  · intro v h3 hm
    simp [vehicleCellRecode, vehicleUnknown9Cols, vehicleUnknown99Cols, h3, hm]
  · intro col hcol
    fin_cases hcol <;>
      exact ⟨by decide, fun v h9 hm => by
        simp [accidentCellRecode, accidentUnknown9Cols, h9, hm]⟩
  · intro v h99 hm
    simp [accidentCellRecode, accidentUnknown9Cols, h99, hm]

/-- C9 witness: the sentinel-recode theorem evaluated at concrete columns
and codes: a valid towing code 5 passes through, journey-purpose codes 15
and 2 become missing and pass through respectively, and a valid speed
limit 30 passes through. -/
theorem unknown_sentinels_become_missing_witness :
    vehicleCellRecode "towing_and_articulation" 5 = some 5
  ∧ vehicleCellRecode "journey_purpose_of_driver" 15 = none
  ∧ vehicleCellRecode "journey_purpose_of_driver" 2 = some 2
  ∧ accidentCellRecode "speed_limit" 30 = some 30 :=
  ⟨(unknown_sentinels_become_missing.1 "towing_and_articulation" (by decide)).2
      5 (by decide) (by decide),
   unknown_sentinels_become_missing.2.2.1.2.1,
   unknown_sentinels_become_missing.2.2.1.2.2 2 (by decide) (by decide) (by decide),
   unknown_sentinels_become_missing.2.2.2.2.2.2 30 (by decide) (by decide)⟩

theorem stratified_split_class {φ : Type} (data : List (φ × Int)) (c : Int) :
    ((stratified_split data).1.filter fun r => decide (r.2 = c))
      = (data.filter fun r => decide (r.2 = c)).take
          (4 * (data.filter fun r => decide (r.2 = c)).length / 5)
  ∧ ((stratified_split data).2.filter fun r => decide (r.2 = c))
      = (data.filter fun r => decide (r.2 = c)).drop
          (4 * (data.filter fun r => decide (r.2 = c)).length / 5) := by
  simp only [stratified_split]
  rw [filter_flatMap, filter_flatMap]
  by_cases hcmem : c ∈ data.map fun r => r.2
  · have hcdF : c ∈ dedupFirst (data.map fun r => r.2) :=
      (mem_dedupFirst _ _).mpr hcmem
    have hz1 : ∀ x ∈ dedupFirst (data.map fun r => r.2), x ≠ c →
        (((data.filter fun r => decide (r.2 = x)).take
            (4 * (data.filter fun r => decide (r.2 = x)).length / 5)).filter
          fun r => decide (r.2 = c)) = [] := by
      intro x _ hxc
      apply List.filter_eq_nil_iff.mpr
      intro r hr
      have hr2 : r.2 = x := by
        have := List.of_mem_filter (List.mem_of_mem_take hr)
        simpa using this
      simp [hr2, hxc]
    have hz2 : ∀ x ∈ dedupFirst (data.map fun r => r.2), x ≠ c →
        (((data.filter fun r => decide (r.2 = x)).drop
            (4 * (data.filter fun r => decide (r.2 = x)).length / 5)).filter
          fun r => decide (r.2 = c)) = [] := by
      intro x _ hxc
      apply List.filter_eq_nil_iff.mpr
      intro r hr
      have hr2 : r.2 = x := by
        have := List.of_mem_filter (List.mem_of_mem_drop hr)
        simpa using this
      simp [hr2, hxc]
    rw [flatMap_eq_of_unique _ _ c (nodup_dedupFirst _) hcdF hz1,
      flatMap_eq_of_unique _ _ c (nodup_dedupFirst _) hcdF hz2]
    constructor
    · apply List.filter_eq_self.mpr
      intro r hr
      have := List.of_mem_filter (List.mem_of_mem_take hr)
      simpa using this
    · apply List.filter_eq_self.mpr
      intro r hr
      have := List.of_mem_filter (List.mem_of_mem_drop hr)
      simpa using this
  · have hs : data.filter (fun r => decide (r.2 = c)) = [] := by
      apply List.filter_eq_nil_iff.mpr
      intro r hr
      simp only [decide_eq_true_eq]
      intro h2
      exact hcmem (List.mem_map.mpr ⟨r, hr, h2⟩)
    rw [hs]
    simp only [List.take_nil, List.drop_nil]
    constructor <;>
    · apply List.flatMap_eq_nil_iff.mpr
      intro x hx
      apply List.filter_eq_nil_iff.mpr
      intro r hr
      have hx2 : x ∈ data.map fun r => r.2 := (mem_dedupFirst _ _).mp hx
      have hxc : x ≠ c := fun hxc => hcmem (hxc ▸ hx2)
      have hr2 : r.2 = x := by
        have h1 : r ∈ data.filter fun r => decide (r.2 = x) := by
          first
          | exact List.mem_of_mem_take hr
          | exact List.mem_of_mem_drop hr
        have := List.of_mem_filter h1
        simpa using this
      simp [hr2, hxc]

/-- C7 (spec-modelled, the training/prediction code being absent from
src/): the imputation step writes every present label back unchanged;
every missing label is replaced by the prediction of the classifier that
was fitted on the stratified 80/20 split of exactly the label-present
subset, predicting from the feature columns with the label column excluded
by construction; and the split is a per-class 80/20 partition of the
label-present subset (stratified on the label). -/
theorem imputation_model_step_spec {φ : Type}
    (fit : List (φ × Int) × List (φ × Int) → φ → Int)
    (rows : List (φ × Option Int)) :
    (∀ (x : φ) (l : Int), (x, some l) ∈ rows → (x, l) ∈ impute_modal_type fit rows)
  ∧ (∀ x : φ, (x, (none : Option Int)) ∈ rows →
      (x, fit (stratified_split (label_present_subset rows)) x) ∈ impute_modal_type fit rows)
  ∧ (∀ (data : List (φ × Int)) (c : Int),
      ((stratified_split data).1.filter fun r => decide (r.2 = c)) ++
        ((stratified_split data).2.filter fun r => decide (r.2 = c))
        = data.filter (fun r => decide (r.2 = c))
    ∧ (((stratified_split data).1.filter fun r => decide (r.2 = c)).length
        = 4 * (data.filter fun r => decide (r.2 = c)).length / 5)) := by
  refine ⟨?_, ?_, ?_⟩
  · intro x l hmem
    exact List.mem_map.mpr ⟨(x, some l), hmem, rfl⟩
  · intro x hmem
    exact List.mem_map.mpr ⟨(x, none), hmem, rfl⟩
  · intro data c
    obtain ⟨e1, e2⟩ := stratified_split_class data c
    have hle : 4 * (data.filter fun r => decide (r.2 = c)).length / 5
        ≤ (data.filter fun r => decide (r.2 = c)).length := by omega
    constructor
    · rw [e1, e2, List.take_append_drop]
    · rw [e1, List.length_take]
      omega

/-- C7 witness: the imputation-step theorem applied to a concrete row set
(one present label 7, one missing) and a concrete classifier. -/
theorem imputation_model_step_spec_witness :
    ((1 : Nat), (7 : Int)) ∈
      impute_modal_type (fun _ _ => (7 : Int)) [(1, some 7), (2, none)]
  ∧ ((2 : Nat), (7 : Int)) ∈
      impute_modal_type (fun _ _ => (7 : Int)) [(1, some 7), (2, none)] :=
  ⟨(imputation_model_step_spec _ _).1 1 7 (by decide),
   (imputation_model_step_spec _ _).2.1 2 (by decide)⟩

theorem modeVC_spec (l : List (Option Int)) (h : l ≠ []) :
    modeVC l ∈ l ∧ ∀ y ∈ l, l.count y ≤ l.count (modeVC l) := by
  obtain ⟨x, hx, hmax⟩ := exists_max_image l (fun y => l.count y) h
  have hfind : ∃ z, l.find? (fun z => l.all fun y => decide (l.count y ≤ l.count z))
      = some z := by
    rcases hf : l.find? (fun z => l.all fun y => decide (l.count y ≤ l.count z)) with _ | z
    · exfalso
      apply List.find?_eq_none.mp hf x hx
      rw [List.all_eq_true]
      intro y hy
      exact decide_eq_true (hmax y hy)
    · exact ⟨z, rfl⟩
  obtain ⟨z, hz⟩ := hfind
  have hmem := List.mem_of_find?_eq_some hz
  have hsat := List.find?_some hz
  rw [List.all_eq_true] at hsat
  constructor
  · simp [modeVC, hz, hmem]
  · intro y hy
    have := hsat y hy
    simp only [decide_eq_true_eq] at this
    simpa [modeVC, hz] using this

theorem optMeanInt_single (a : Int) : optMeanInt [some a] = some ((a : ℚ)) := by
  simp [optMeanInt]

theorem optMeanInt_none_single : optMeanInt [none] = none := by
  simp [optMeanInt]

theorem optMeanQ_none_some (q : ℚ) : optMeanQ [none, some q] = some q := by
  simp [optMeanQ]

/-- C1 counterexample: on the concrete seeded frame `c1df` the claim
fails. Vehicle ("a",1) has recoded types [NaN, NaN, 8]: the missing-
excluded mode required by the claim is 8, but the source counts NaN
(`value_counts(dropna=False)`), gets NaN as the winner, and then fills it
with the global modal category 9; vehicle ("a",3) has no casualties, so
the claim requires the field to remain missing, but the source fills it
with the global modal category 9 as well. -/
theorem modal_type_claim_counterexample : ¬ claimC1Holds c1df := by
  unfold claimC1Holds
  decide

/-- C1 (amended): the per-group modal struck-object category is the most
frequent value of the recoded casualty types with genuine missing values
INCLUDED in the frequency count (`value_counts(dropna=False)`); and a
group whose winning value is missing does not remain missing but is filled
with the global modal category of the group-mode column (utils.py lines
139-141; the residual -1 branch is unreachable unless every group mode is
missing, where the source's int cast raises instead). -/
theorem modal_type_counts_missing_with_global_fallback
    (df0 : List CasualtyRow) (k : GroupKey) (hk : k ∈ aggKeys df0) :
    modeVC ((groupRows key2 (stage4 df0) k).map fun r => r.casualty_type)
        ∈ ((groupRows key2 (stage4 df0) k).map fun r => r.casualty_type)
  ∧ (∀ y ∈ (groupRows key2 (stage4 df0) k).map fun r => r.casualty_type,
      (((groupRows key2 (stage4 df0) k).map fun r => r.casualty_type).count y)
        ≤ (((groupRows key2 (stage4 df0) k).map fun r => r.casualty_type).count
            (modeVC ((groupRows key2 (stage4 df0) k).map fun r => r.casualty_type))))
  ∧ modal_final df0 k =
      (match modal_at df0 k with
       | some m => m
       | none => (globalMode (modal_raw df0)).getD (-1)) := by
  have hne : groupRows key2 (stage4 df0) k ≠ [] :=
    groupRows_ne_nil_of_mem_aggKeys df0 k hk
  have hne2 : (groupRows key2 (stage4 df0) k).map (fun r => r.casualty_type) ≠ [] := by
    simpa using hne
  obtain ⟨h1, h2⟩ := modeVC_spec _ hne2
  refine ⟨h1, h2, ?_⟩
  rcases hm : modal_at df0 k with _ | m <;> simp [modal_final, hm]

/-- C1 witness: the amended modal-aggregation theorem applied to the
concrete frame `c1df` at the group ("a",2). -/
theorem modal_type_counts_missing_with_global_fallback_witness :
    modeVC ((groupRows key2 (stage4 c1df) ("a", 2)).map fun r => r.casualty_type)
        ∈ ((groupRows key2 (stage4 c1df) ("a", 2)).map fun r => r.casualty_type)
  ∧ (∀ y ∈ (groupRows key2 (stage4 c1df) ("a", 2)).map fun r => r.casualty_type,
      (((groupRows key2 (stage4 c1df) ("a", 2)).map fun r => r.casualty_type).count y)
        ≤ (((groupRows key2 (stage4 c1df) ("a", 2)).map fun r => r.casualty_type).count
            (modeVC ((groupRows key2 (stage4 c1df) ("a", 2)).map fun r => r.casualty_type))))
  ∧ modal_final c1df ("a", 2) =
      (match modal_at c1df ("a", 2) with
       | some m => m
       | none => (globalMode (modal_raw c1df)).getD (-1)) :=
  modal_type_counts_missing_with_global_fallback c1df ("a", 2) (by decide)

/-- C3 (code bug): the column selection of utils.py line 173 is empty —
no column of the aggregated frame has "casualty_class" in its name, the
column itself having been dropped at line 148 with no one-hot expansion
ever created in this variant — so `casualty_total` is 0 for every row. On
the failing input `c3df` the vehicle ("a",1) has exactly 1 actual casualty
row, yet its `casualty_total` output is 0. -/
theorem casualty_total_always_zero :
    (preTotalColumns.filter fun c => strContains c "casualty_class") = []
  ∧ (∀ (w m : Int) (sh ag : ℚ), casualty_total_value w m sh ag = 0)
  ∧ ((aggregate_casualty_data c3df).map fun r => r.casualty_total) = [0]
  ∧ (groupRows keyC c3cas ("a", 1)).length = 1 := by
  refine ⟨by decide, ?_, by decide, by decide⟩
  intro w m sh ag
  have h : (preTotalColumns.filter fun c => strContains c "casualty_class") = [] := by
    decide
  simp only [casualty_total_value]
  rw [h]
  rfl

/-- C8 (code bug): utils.py line 124 masks the age on
`sex_of_casualty == -1` instead of `age_of_casualty == -1`, so an age
carrying the missing code -1 with a valid sex is averaged in. On the
failing input `c8df` the group ("a",1) consists of one casualty with age
code -1 and sex 1: the source's final mean age for the group is -1, while
the claim's missing-safe mean (spec side) excludes the sentinel, finds the
group empty, and imputes it with the global mean 30. -/
theorem mean_age_masks_wrong_column :
    age_final c8df ("a", 1) = -1 ∧ specAgeFinal c8df ("a", 1) = 30 := by
  have e1 : (groupRows key2 (stage3 c8df) ("a", 1)).map (fun r => r.age_of_casualty)
      = [some (-1)] := by decide
  have hage1 : age_at c8df ("a", 1) = some (-1) := by
    rw [age_at, e1, optMeanInt_single]
    norm_num
  have s1 : ((groupRows key2 (stage2 c8df) ("a", 1)).map fun r =>
      match r.age_of_casualty with
      | some (-1) => none
      | x => x) = [none] := by decide
  have hspec1 : specAgeAt c8df ("a", 1) = none := by
    rw [specAgeAt, s1, optMeanInt_none_single]
  have s2 : ((groupRows key2 (stage2 c8df) ("a", 2)).map fun r =>
      match r.age_of_casualty with
      | some (-1) => none
      | x => x) = [some 30] := by decide
  have hspec2 : specAgeAt c8df ("a", 2) = some 30 := by
    rw [specAgeAt, s2, optMeanInt_single]
    norm_num
  have hkeys : aggKeys c8df = [("a", 1), ("a", 2)] := by decide
  have hraw : specAgeRaw c8df = [none, some 30] := by
    rw [specAgeRaw, hkeys]
    simp [hspec1, hspec2]
  have hglob : optMeanQ (specAgeRaw c8df) = some 30 := by
    rw [hraw]
    exact optMeanQ_none_some 30
  constructor
  · simp [age_final, hage1]
  · simp [specAgeFinal, hspec1, hglob]

theorem listMin_append_single_le (l : List Int) (x : Int) (h : l ≠ []) :
    listMin (l ++ [x]) ≤ listMin l := by
  match l with
  | h₀ :: t =>
    show listMin (h₀ :: (t ++ [x])) ≤ listMin (h₀ :: t)
    rw [listMin, listMin, List.foldl_append, List.foldl_cons, List.foldl_nil]
    exact min_le_left _ _

/-- C4: the per-group worst severity of utils.py line 145 is the minimum
of the group's (sentinel-filled) casualty severities — it is a member of
the group's severity column and a lower bound of it — and it is monotone:
appending one more casualty row to the group can only decrease it or keep
it equal. -/
theorem worst_severity_min_monotonic (df0 : List CasualtyRow) (k : GroupKey)
    (hk : k ∈ aggKeys df0) :
    (worst_at df0 k ∈ ((groupRows key2 (stage4 df0) k).map fun r => r.casualty_severity))
  ∧ (∀ s ∈ (groupRows key2 (stage4 df0) k).map fun r => r.casualty_severity,
      worst_at df0 k ≤ s)
  ∧ ∀ r : CasualtyRow, keyC r = k → worst_at (df0 ++ [r]) k ≤ worst_at df0 k := by
  have hne : groupRows key2 (stage4 df0) k ≠ [] :=
    groupRows_ne_nil_of_mem_aggKeys df0 k hk
  have hne2 : (groupRows key2 (stage4 df0) k).map (fun r => r.casualty_severity) ≠ [] := by
    simpa using hne
  refine ⟨listMin_mem _ hne2, listMin_le _, ?_⟩
  intro r hr
  have hk2 : (r.accident_reference, r.vehicle_reference) = k := hr
  have hgrp : groupRows key2 (stage4 (df0 ++ [r])) k
      = groupRows key2 (stage4 df0) k ++ groupRows key2 (stage4 [r]) k := by
    rw [groupRows_stage4, groupRows_stage4, groupRows_stage4]
    have hsplit : groupRows keyC (df0 ++ [r]) k
        = groupRows keyC df0 k ++ groupRows keyC [r] k := by
      simp [groupRows, List.filter_append]
    rw [hsplit]
    simp [fillSentinels, recodeSex, maskAge, recodeType]
  have hsing : groupRows key2 (stage4 [r]) k = stage4 [r] := by
    simp [groupRows, stage4, stage3, stage2, recodeType, maskAge, recodeSex,
      fillSentinels, key2, hk2]
  have step : worst_at (df0 ++ [r]) k
      = listMin (((groupRows key2 (stage4 df0) k).map fun r2 => r2.casualty_severity)
          ++ ((stage4 [r]).map fun r2 => r2.casualty_severity)) := by
    simp only [worst_at]
    rw [hgrp, hsing, List.map_append]
  rw [step]
  have hx : ∃ x, (stage4 [r]).map (fun r2 => r2.casualty_severity) = [x] := ⟨_, rfl⟩
  obtain ⟨x, hxe⟩ := hx
  rw [hxe]
  exact listMin_append_single_le _ x hne2

/-- C4 witness: the worst-severity theorem applied to the concrete frame
`c3df` at the group ("a",1), appending a fatal (severity 1) casualty. -/
theorem worst_severity_min_monotonic_witness :
    (worst_at c3df ("a", 1)
        ∈ ((groupRows key2 (stage4 c3df) ("a", 1)).map fun r => r.casualty_severity))
  ∧ (∀ s ∈ (groupRows key2 (stage4 c3df) ("a", 1)).map fun r => r.casualty_severity,
      worst_at c3df ("a", 1) ≤ s)
  ∧ ∀ r : CasualtyRow, keyC r = ("a", 1) →
      worst_at (c3df ++ [r]) ("a", 1) ≤ worst_at c3df ("a", 1) :=
  worst_severity_min_monotonic c3df ("a", 1) (by decide)

/-- C5 counterexample: on a concrete input with one vehicle row whose
accident reference "b" has no accident match, the row is indeed absent
from the merged output (that half of the claim holds), the dropped-row
count is 1, yet the implementation's report stream is empty — it does not
report the count of dropped rows, refuting the claim's second half. -/
theorem join_drop_count_not_reported :
    yearPipeline [{ accident_reference := "b", vehicle_reference := 1, vehicle_type := 9 }]
        [{ accident_reference := "a", speed_limit := 30 }] [] = []
  ∧ unmatchedVehicleCount
      [{ accident_reference := "b", vehicle_reference := 1, vehicle_type := 9 }]
      [{ accident_reference := "a", speed_limit := 30 }] = 1
  ∧ read_data_report = [] :=
  ⟨by decide, by decide, rfl⟩

/-- C5 (amended): a vehicle row whose accident reference has no matching
accident row never appears in the per-year merged output (it is dropped by
the inner join of utils.py line 64); the implementation, however, does not
report the count of such dropped rows — it emits no diagnostics at all
(the only acknowledgement is a source comment). -/
theorem unmatched_vehicle_never_in_output (vehicle : List VehicleRow)
    (accident : List AccidentRow) (casualty : List CasualtyRow) (vr : VehicleRow)
    (hnomatch : ∀ ac ∈ accident, ac.accident_reference ≠ vr.accident_reference) :
    (∀ fr ∈ yearPipeline vehicle accident casualty, fr.veh ≠ vr)
  ∧ read_data_report = [] := by
  refine ⟨?_, rfl⟩
  intro fr hfr hveq
  obtain ⟨p, hp, hfr2⟩ := List.mem_flatMap.mp hfr
  obtain ⟨ac, hac, hfr3⟩ := List.mem_map.mp hfr2
  have hacmem : ac ∈ accident := List.mem_of_mem_filter hac
  have heq : ac.accident_reference = p.1.accident_reference := by
    have := List.of_mem_filter hac
    simpa using this
  have hfrveh : fr.veh = p.1 := by rw [← hfr3]
  have hp1 : p.1 = vr := by rw [← hfrveh, hveq]
  exact hnomatch ac hacmem (by rw [heq, hp1])

/-- C5 witness: the inner-join drop theorem applied to the concrete tables
of the counterexample input. -/
theorem unmatched_vehicle_never_in_output_witness :
    (∀ fr ∈ yearPipeline
        [{ accident_reference := "b", vehicle_reference := 1, vehicle_type := 9 }]
        [{ accident_reference := "a", speed_limit := 30 }] [],
      fr.veh ≠ { accident_reference := "b", vehicle_reference := 1, vehicle_type := 9 })
  ∧ read_data_report = [] :=
  unmatched_vehicle_never_in_output _ _ _ _ (by decide)

/-- C2: a vehicle with zero casualty rows gets exactly one seeded all-NaN
casualty row, which the sentinel fill of utils.py lines 107-111 turns into
casualty_class = 0 ("no casualty") and casualty_severity = 4
("non-injury"); and that vehicle still appears exactly once in the merged
per-year output (given well-formed inputs: distinct vehicle keys and
exactly one accident row under its reference). -/
theorem no_casualty_vehicle_sentinels_and_kept
    (vehicle : List VehicleRow) (accident : List AccidentRow)
    (casualty : List CasualtyRow) (vr : VehicleRow)
    (hnd : (vehicle.map keyV).Nodup)
    (hvr : vr ∈ vehicle)
    (hnocas : ∀ c ∈ casualty, keyC c ≠ keyV vr)
    (hacc : (accident.filter fun ac =>
        decide (ac.accident_reference = vr.accident_reference)).length = 1) :
    groupRows keyC (seedCasualty (vehicle.map keyV) casualty) (keyV vr)
      = [emptyCasRow (keyV vr)]
  ∧ groupRows key2 (fillSentinels (seedCasualty (vehicle.map keyV) casualty)) (keyV vr)
      = [{ accident_reference := vr.accident_reference,
           vehicle_reference := vr.vehicle_reference,
           casualty_reference := none, casualty_class := 0, sex_of_casualty := none,
           age_of_casualty := none, casualty_severity := 4, casualty_type := none }]
  ∧ ((yearPipeline vehicle accident casualty).countP
        fun fr => decide (keyV fr.veh = keyV vr)) = 1 := by
  have hKmem : keyV vr ∈ vehicle.map keyV := List.mem_map_of_mem keyV hvr
  have hgempty : groupRows keyC casualty (keyV vr) = [] := by
    apply List.filter_eq_nil_iff.mpr
    intro c hc
    simpa using hnocas c hc
  have hbranchkey : ∀ x : GroupKey, ∀ r ∈ (if (groupRows keyC casualty x).isEmpty
      then [emptyCasRow x] else groupRows keyC casualty x), keyC r = x := by
    intro x r hrx
    by_cases he : (groupRows keyC casualty x).isEmpty
    · rw [if_pos he] at hrx
      simp only [List.mem_singleton] at hrx
      subst hrx
      show ((emptyCasRow x).accident_reference, (emptyCasRow x).vehicle_reference) = x
      exact Prod.mk.eta
    · rw [if_neg he] at hrx
      have := List.of_mem_filter hrx
      simpa using this
  have hA : groupRows keyC (seedCasualty (vehicle.map keyV) casualty) (keyV vr)
      = [emptyCasRow (keyV vr)] := by
    show ((vehicle.map keyV).flatMap fun k =>
        if (groupRows keyC casualty k).isEmpty then [emptyCasRow k]
        else groupRows keyC casualty k).filter
        (fun r => decide (keyC r = keyV vr)) = _
    rw [filter_flatMap]
    have hz : ∀ x ∈ vehicle.map keyV, x ≠ keyV vr →
        ((if (groupRows keyC casualty x).isEmpty then [emptyCasRow x]
          else groupRows keyC casualty x).filter
          fun r => decide (keyC r = keyV vr)) = [] := by
      intro x hx hxK
      apply List.filter_eq_nil_iff.mpr
      intro r hrx
      have hkey := hbranchkey x r hrx
      simp [hkey, hxK]
    rw [flatMap_eq_of_unique _ _ (keyV vr) hnd hKmem hz]
    rw [hgempty]
    have hekey : keyC (emptyCasRow (keyV vr)) = keyV vr := Prod.mk.eta
    simp [hekey]
  refine ⟨hA, ?_, ?_⟩
  · rw [groupRows_fillSentinels, hA]
    simp [fillSentinels, emptyCasRow, keyV]
  · -- retention through both joins
    have hKagg : keyV vr ∈ aggKeys (seedCasualty (vehicle.map keyV) casualty) := by
      apply (mem_aggKeys _ _).mpr
      refine ⟨emptyCasRow (keyV vr), ?_, Prod.mk.eta⟩
      apply List.mem_flatMap.mpr
      refine ⟨keyV vr, hKmem, ?_⟩
      rw [hgempty]
      simp
    have hpred : (fun k : GroupKey => decide
        (keyA (aggRowFor (seedCasualty (vehicle.map keyV) casualty) k) = keyV vr))
        = fun k : GroupKey => decide (k = keyV vr) := by
      funext k
      have : keyA (aggRowFor (seedCasualty (vehicle.map keyV) casualty) k) = k :=
        Prod.mk.eta
      rw [this]
    have hfilteragg : ((aggregate_casualty_data
          (seedCasualty (vehicle.map keyV) casualty)).filter
        fun ar => decide (keyA ar = keyV vr))
        = [aggRowFor (seedCasualty (vehicle.map keyV) casualty) (keyV vr)] := by
      show (((aggKeys (seedCasualty (vehicle.map keyV) casualty)).map
          (aggRowFor (seedCasualty (vehicle.map keyV) casualty))).filter
          fun ar => decide (keyA ar = keyV vr)) = _
      rw [List.filter_map]
      have : ((aggKeys (seedCasualty (vehicle.map keyV) casualty)).filter
          ((fun ar => decide (keyA ar = keyV vr)) ∘
            aggRowFor (seedCasualty (vehicle.map keyV) casualty)))
          = [keyV vr] := by
        have hcomp : ((fun ar => decide (keyA ar = keyV vr)) ∘
            aggRowFor (seedCasualty (vehicle.map keyV) casualty))
            = fun k : GroupKey => decide (k = keyV vr) := by
          funext k
          show decide (keyA (aggRowFor _ k) = keyV vr) = decide (k = keyV vr)
          have : keyA (aggRowFor (seedCasualty (vehicle.map keyV) casualty) k) = k :=
            Prod.mk.eta
          rw [this]
        rw [hcomp]
        exact filter_eq_singleton_of_nodup _ (nodup_dedupFirst _) _ hKagg
      rw [this]
      rfl
    have hvnd : vehicle.Nodup := List.Nodup.of_map keyV hnd
    show (((vehicle.flatMap fun vr2 =>
        if ((aggregate_casualty_data (seedCasualty (vehicle.map keyV) casualty)).filter
            fun ar => decide (keyA ar = keyV vr2)).isEmpty
        then [(vr2, (none : Option AggRow))]
        else ((aggregate_casualty_data (seedCasualty (vehicle.map keyV) casualty)).filter
            fun ar => decide (keyA ar = keyV vr2)).map
          fun ar => (vr2, some ar)).flatMap fun p =>
        (accident.filter fun ac =>
          decide (ac.accident_reference = p.1.accident_reference)).map
          fun ac => ({ veh := p.1, agg := p.2, acc := ac } : FinalRow)).countP
        fun fr => decide (keyV fr.veh = keyV vr)) = 1
    rw [List.flatMap_assoc, countP_flatMap]
    have hinner : ∀ vr2 : VehicleRow, ∀ q ∈ (if ((aggregate_casualty_data
          (seedCasualty (vehicle.map keyV) casualty)).filter
            fun ar => decide (keyA ar = keyV vr2)).isEmpty
        then [(vr2, (none : Option AggRow))]
        else ((aggregate_casualty_data (seedCasualty (vehicle.map keyV) casualty)).filter
            fun ar => decide (keyA ar = keyV vr2)).map
          fun ar => (vr2, some ar)), q.1 = vr2 := by
      intro vr2 q hq
      by_cases he : ((aggregate_casualty_data
          (seedCasualty (vehicle.map keyV) casualty)).filter
            fun ar => decide (keyA ar = keyV vr2)).isEmpty
      · rw [if_pos he] at hq
        simp only [List.mem_singleton] at hq
        rw [hq]
      · rw [if_neg he] at hq
        obtain ⟨ar, _, hq2⟩ := List.mem_map.mp hq
        rw [← hq2]
    have hz : ∀ y ∈ vehicle, y ≠ vr →
        (((if ((aggregate_casualty_data (seedCasualty (vehicle.map keyV) casualty)).filter
            fun ar => decide (keyA ar = keyV y)).isEmpty
          then [(y, (none : Option AggRow))]
          else ((aggregate_casualty_data (seedCasualty (vehicle.map keyV) casualty)).filter
              fun ar => decide (keyA ar = keyV y)).map
            fun ar => (y, some ar)).flatMap fun p =>
          (accident.filter fun ac =>
            decide (ac.accident_reference = p.1.accident_reference)).map
            fun ac => ({ veh := p.1, agg := p.2, acc := ac } : FinalRow)).countP
          fun fr => decide (keyV fr.veh = keyV vr)) = 0 := by
      intro y hy hyvr
      apply List.countP_eq_zero.mpr
      intro fr hfr
      obtain ⟨q, hq, hfr2⟩ := List.mem_flatMap.mp hfr
      obtain ⟨ac, _, hfr3⟩ := List.mem_map.mp hfr2
      have hq1 : q.1 = y := hinner y q hq
      have hfrveh : fr.veh = y := by rw [← hfr3]; exact hq1
      have hkey : keyV y ≠ keyV vr := fun hkk =>
        hyvr (List.inj_on_of_nodup_map hnd hy hvr hkk)
      simp [hfrveh, hkey]
    rw [sum_map_eq_of_unique vehicle _ vr hvnd hvr hz]
    rw [hfilteragg]
    simp only [List.isEmpty_cons, List.map_cons, List.map_nil, Bool.false_eq_true,
      if_false, List.flatMap_cons, List.flatMap_nil, List.append_nil]
    rw [List.countP_map]
    have hconst : ((fun fr : FinalRow => decide (keyV fr.veh = keyV vr)) ∘
        fun ac =>
          ({ veh := vr,
             agg := some (aggRowFor (seedCasualty (vehicle.map keyV) casualty) (keyV vr)),
             acc := ac } : FinalRow)) = fun _ : AccidentRow => true := by
      funext ac
      simp
    rw [hconst]
    rw [List.countP_true]
    exact hacc

/-- C2 witness: the zero-casualty retention theorem applied to a concrete
single-vehicle, single-accident input with no casualty rows. -/
theorem no_casualty_vehicle_sentinels_and_kept_witness :
    groupRows keyC (seedCasualty
        ([{ accident_reference := "a", vehicle_reference := 1, vehicle_type := 9 }].map keyV)
        []) (keyV { accident_reference := "a", vehicle_reference := 1, vehicle_type := 9 })
      = [emptyCasRow
          (keyV { accident_reference := "a", vehicle_reference := 1, vehicle_type := 9 })]
  ∧ groupRows key2 (fillSentinels (seedCasualty
        ([{ accident_reference := "a", vehicle_reference := 1, vehicle_type := 9 }].map keyV)
        []))
      (keyV { accident_reference := "a", vehicle_reference := 1, vehicle_type := 9 })
      = [{ accident_reference := "a", vehicle_reference := 1,
           casualty_reference := none, casualty_class := 0, sex_of_casualty := none,
           age_of_casualty := none, casualty_severity := 4, casualty_type := none }]
  ∧ ((yearPipeline
        [{ accident_reference := "a", vehicle_reference := 1, vehicle_type := 9 }]
        [{ accident_reference := "a", speed_limit := 30 }] []).countP
      fun fr => decide (keyV fr.veh =
        keyV { accident_reference := "a", vehicle_reference := 1, vehicle_type := 9 })) = 1 :=
  no_casualty_vehicle_sentinels_and_kept
    [{ accident_reference := "a", vehicle_reference := 1, vehicle_type := 9 }]
    [{ accident_reference := "a", speed_limit := 30 }] []
    { accident_reference := "a", vehicle_reference := 1, vehicle_type := 9 }
    (by decide) (by decide) (by simp) (by decide)

end GBInjuries
